import Mathlib

/-!
Verification of the pension comparison engine (`src/pension_app.py`).

The program is embedded shallowly:

* money amounts and rates are modelled by exact arithmetic (`ℚ` for the
  pure pension formulas, `ℝ` for the investment simulation, whose
  quarterly rate `(1 + annual) ^ (1/4) - 1` is a real fourth root);
* ages and Korean-won asset snapshots are integers (`ℤ`);
* Python's `round` (round half to even) is modelled by `pyround`;
* the `pandas` data frames are modelled by lists of tuples in age order.
-/

/-! ## PensionAdjuster: the pure pension formulas (lines 8-25) -/

/-- Line 8: `calculate_early_pension_reduction_rate(years_early)` returns
`1 - (years_early * 0.06)`.  `K` is the number field the arithmetic is read
in (`ℚ` or `ℝ`); the literal `0.06` is the exact rational `6/100`. -/
def calculate_early_pension_reduction_rate (K : Type) [LinearOrderedField K]
    (years_early : ℤ) : K :=
  1 - ((years_early : K) * (6 / 100))

/-- Line 15: `calculate_annual_pension_with_increase_rate` returns `0` when
`current_age < pension_start_age`, otherwise
`(base * (1 + rate) ** (current_age - pension_start_age)) * 12`. -/
def calculate_annual_pension_with_increase_rate (K : Type) [LinearOrderedField K]
    (base_monthly_pension : K) (pension_start_age current_age : ℤ)
    (pension_increase_rate : K) : K :=
  if current_age < pension_start_age then 0
  else base_monthly_pension * (1 + pension_increase_rate) ^ (current_age - pension_start_age).toNat * 12

/-- The adjusted monthly pension observable of the spec's PensionAdjuster:
the annual amount returned by the source function divided by `12`
(the source's internal `adjusted_monthly_pension` variable, line 24). -/
def adjustedMonthlyPension (K : Type) [LinearOrderedField K]
    (base_monthly_pension : K) (pension_start_age current_age : ℤ)
    (pension_increase_rate : K) : K :=
  calculate_annual_pension_with_increase_rate K base_monthly_pension
    pension_start_age current_age pension_increase_rate / 12

/-! ## Crossover detection (lines 226-235) -/

/-- The sign-change condition of the crossover loop at one consecutive pair
of deltas: `delta[i-1] > 0 and delta[i] <= 0`, or
`delta[i-1] < 0 and delta[i] >= 0`. -/
def sign_change (dprev d : ℤ) : Prop :=
  (dprev > 0 ∧ d ≤ 0) ∨ (dprev < 0 ∧ d ≥ 0)

instance (dprev d : ℤ) : Decidable (sign_change dprev d) := by
  unfold sign_change; infer_instance

/-- The body of the loop at lines 227-235: `dprev` is the delta at index
`i - 1`, the list holds the `(age, delta)` rows from index `i` on; the
first row whose pair with its predecessor satisfies `sign_change` is
reported by its age, and the loop breaks. -/
def crossover_scan : ℤ → List (ℤ × ℤ) → Option ℤ
  | _, [] => none
  | dprev, (a, d) :: rest =>
    if sign_change dprev d then some a else crossover_scan d rest

/-- Lines 226-235: `crossover_age` starts as `None` and the loop runs over
indices `1 .. len - 1` of the merged `(age, delta)` rows. -/
def crossover_age : List (ℤ × ℤ) → Option ℤ
  | [] => none
  | (_, d0) :: rest => crossover_scan d0 rest

/-- Modelled from the spec's words (section 4.3): the first transition, in
increasing age order, where `delta` changes sign across consecutive ages,
reported by the age of the second element of the pair. -/
def crossover_first_sign_change (rows : List (ℤ × ℤ)) : Option ℤ :=
  ((rows.zip rows.tail).find? fun pr => decide (sign_change pr.1.2 pr.2.2)).map
    fun pr => pr.2.1

/-! ## The merged comparison frame (lines 182-193) -/

/-- A pandas `merge (how = left)` lookup of one age in an asset series:
the asset of the first row carrying that age, if any. -/
def lookupAsset (series : List (ℤ × ℤ)) (age : ℤ) : Option ℤ :=
  (series.find? fun row => row.1 == age).map fun row => row.2

/-- Lines 182-193: the merged frame over the full age range
`range(early_pension_start_age, investment_end_age + 1)`; a missing entry
counts as `0` (the `fillna(0)` of line 190 for the regular column; the early
series covers the whole range in the program, so its default is never
taken).  Each row is `(age, early assets, regular assets, delta)` with
`delta = early - regular` (line 193). -/
def merged_df (early_df regular_df : List (ℤ × ℤ)) (s e : ℤ) :
    List (ℤ × ℤ × ℤ × ℤ) :=
  (List.range (e + 1 - s).toNat).map fun n : ℕ =>
    ((s + n : ℤ), (lookupAsset early_df (s + n)).getD 0,
      (lookupAsset regular_df (s + n)).getD 0,
      (lookupAsset early_df (s + n)).getD 0 - (lookupAsset regular_df (s + n)).getD 0)

/-! ## AssetSimulator: `simulate_investment` (lines 27-65) -/

noncomputable section

open Classical in
/-- Python's builtin `round`: round to the nearest integer, ties to the
nearest even integer. -/
def pyround (x : ℝ) : ℤ :=
  if Int.fract x = 1 / 2 then 2 * round (x / 2) else round x

/-- Line 37: `quarterly_return_rate = (1 + annual_return_rate) ** (1/4) - 1`. -/
def quarterly_return_rate (annual_return_rate : ℝ) : ℝ :=
  (1 + annual_return_rate) ^ ((1 : ℝ) / 4) - 1

/-- One iteration of the quarter loop (lines 57-61): add three months of
pension income, then apply the quarterly return. -/
def quarter_step (q m c : ℝ) : ℝ :=
  (c + m * 3) * (1 + q)

/-- The four quarters of one age-year (`for quarter in range(4)`, line 57). -/
def year_step (q m c : ℝ) : ℝ :=
  quarter_step q m (quarter_step q m (quarter_step q m (quarter_step q m c)))

/-- The claiming strategy tag threaded through `simulate_investment`
(the Python strings `"early"` / `"regular"`). -/
inductive PensionType
  | early
  | regular
deriving DecidableEq

/-- The ten parameters of `simulate_investment` (line 27), in source order. -/
structure SimParams where
  initial_capital : ℝ
  early_monthly_pension_at_start : ℝ
  base_regular_monthly_pension : ℝ
  annual_return_rate : ℝ
  investment_start_age : ℤ
  investment_end_age : ℤ
  pension_increase_rate : ℝ
  pension_type : PensionType
  regular_pension_start_age : ℤ
  early_pension_start_age : ℤ

/-- Lines 40-51: `annual_pension_income_for_current_year`, branching on
`pension_type`. -/
def annual_pension_income_for_current_year (p : SimParams) (age : ℤ) : ℝ :=
  match p.pension_type with
  | PensionType.early =>
      calculate_annual_pension_with_increase_rate ℝ p.early_monthly_pension_at_start
        p.early_pension_start_age age p.pension_increase_rate
  | PensionType.regular =>
      calculate_annual_pension_with_increase_rate ℝ p.base_regular_monthly_pension
        p.regular_pension_start_age age p.pension_increase_rate

/-- The whole body of the age loop acting on the running capital (lines
40-61): this year's income divided by `12` (line 54) fed through the four
quarters. -/
def year_update (p : SimParams) (age : ℤ) (c : ℝ) : ℝ :=
  year_step (quarterly_return_rate p.annual_return_rate)
    (annual_pension_income_for_current_year p age / 12) c

/-- The full-precision running capital after `n` age-years, with no per-age
recording at all: the reference compounding process the recorded snapshots
are compared against. -/
def capital_after (p : SimParams) : ℕ → ℝ
  | 0 => p.initial_capital
  | n + 1 => year_update p (p.investment_start_age + n) (capital_after p n)

/-- The state of the age loop after `n` iterations: the `data` rows
accumulated so far (line 63 appends `(age, round(current_capital))`) and the
running `current_capital`. -/
def simulate_rows (p : SimParams) : ℕ → List (ℤ × ℤ) × ℝ
  | 0 => ([], p.initial_capital)
  | n + 1 =>
      ((simulate_rows p n).1 ++
          [((p.investment_start_age + n : ℤ),
            pyround (year_update p (p.investment_start_age + n) (simulate_rows p n).2))],
        year_update p (p.investment_start_age + n) (simulate_rows p n).2)

/-- Lines 27-65: the returned data frame, one row per age of
`range(investment_start_age, investment_end_age + 1)`. -/
def simulate_investment (p : SimParams) : List (ℤ × ℤ) :=
  (simulate_rows p (p.investment_end_age + 1 - p.investment_start_age).toNat).1

/-! ## The comparison wiring (lines 133-193) -/

/-- Line 134: `early_pension_start_age = regular_pension_start_age - early_pension_years`. -/
def early_pension_start_age (regular_pension_start_age early_pension_years : ℤ) : ℤ :=
  regular_pension_start_age - early_pension_years

/-- Line 137: the reduced monthly amount at the early start,
`base_regular_monthly_pension * early_pension_reduction_rate`. -/
def early_monthly_pension_at_start (base_regular_monthly_pension : ℝ)
    (early_pension_years : ℤ) : ℝ :=
  base_regular_monthly_pension * calculate_early_pension_reduction_rate ℝ early_pension_years

/-- The argument list of the `simulate_investment` call at line 155
(the early-strategy series). -/
def early_params (base : ℝ) (years : ℤ) (r ri : ℝ) (rs e : ℤ) : SimParams :=
  ⟨0, early_monthly_pension_at_start base years, base, r,
    early_pension_start_age rs years, e, ri, PensionType.early, rs,
    early_pension_start_age rs years⟩

/-- The argument list of the `simulate_investment` call at line 168
(the regular-strategy series). -/
def regular_params (base : ℝ) (years : ℤ) (r ri : ℝ) (rs e : ℤ) : SimParams :=
  ⟨0, early_monthly_pension_at_start base years, base, r, rs, e, ri,
    PensionType.regular, rs, early_pension_start_age rs years⟩

/-- Lines 182-193: the merged comparison frame of the program. -/
def merged_rows (base : ℝ) (years : ℤ) (r ri : ℝ) (rs e : ℤ) :
    List (ℤ × ℤ × ℤ × ℤ) :=
  merged_df (simulate_investment (early_params base years r ri rs e))
    (simulate_investment (regular_params base years r ri rs e))
    (early_pension_start_age rs years) e

/-- Lines 226-235 applied to the program's merged frame: the crossover scan
over its `(age, delta)` columns. -/
def merged_crossover_age (base : ℝ) (years : ℤ) (r ri : ℝ) (rs e : ℤ) : Option ℤ :=
  crossover_age ((merged_rows base years r ri rs e).map fun row => (row.1, row.2.2.2))

/-- The zero-rate parameter vector of claim C6: zero initial capital, base
amount `b` for both strategies, zero return and increase rates, and the
strategy's own pension start age equal to the investment start age, as in
the program's two calls. -/
def zero_rate_params (b s e : ℤ) (pt : PensionType) : SimParams :=
  ⟨0, (b : ℝ), (b : ℝ), 0, s, e, 0, pt, s, s⟩

end


/-! ## Helper lemmas about `pyround` -/

lemma pyround_intCast (n : ℤ) : pyround (n : ℝ) = n := by
  unfold pyround
  rw [if_neg, round_intCast]
  rw [Int.fract_intCast]
  norm_num

lemma abs_pyround_sub_le (x : ℝ) : |(pyround x : ℝ) - x| ≤ 1 / 2 := by
  unfold pyround
  split
  case isTrue h =>
    have hx : x = (⌊x⌋ : ℝ) + 1 / 2 := by
      conv_lhs => rw [← Int.floor_add_fract x]
      rw [h]
    rcases Int.even_or_odd ⌊x⌋ with ⟨k, hk⟩ | ⟨k, hk⟩
    · have hx2 : x / 2 = 1 / 4 + (k : ℝ) := by
        rw [hx, hk]; push_cast; ring
      have hr : round (x / 2) = k := by
        rw [hx2, round_add_int, round_eq]
        norm_num
      have hval : ((2 * round (x / 2) : ℤ) : ℝ) - x = -(1 / 2) := by
        rw [hr, hx, hk]; push_cast; ring
      rw [hval, abs_neg, abs_of_nonneg]
      norm_num
    · have hx2 : x / 2 = 3 / 4 + (k : ℝ) := by
        rw [hx, hk]; push_cast; ring
      have hr : round (x / 2) = k + 1 := by
        rw [hx2, round_add_int, round_eq]
        norm_num
        omega
      have hval : ((2 * round (x / 2) : ℤ) : ℝ) - x = 1 / 2 := by
        rw [hr, hx, hk]; push_cast; ring
      rw [hval, abs_of_nonneg]
      norm_num
  case isFalse h =>
    rw [abs_sub_comm]
    exact abs_sub_round x

lemma pyround_mono {x y : ℝ} (hxy : x ≤ y) : pyround x ≤ pyround y := by
  by_contra hlt
  push_neg at hlt
  have h1 := abs_pyround_sub_le x
  have h2 := abs_pyround_sub_le y
  rw [abs_le] at h1 h2
  have hc : ((pyround y : ℤ) : ℝ) + 1 ≤ ((pyround x : ℤ) : ℝ) := by
    exact_mod_cast Int.add_one_le_iff.mpr hlt
  have hyx : y ≤ x := by linarith [h1.2, h2.1]
  have hxyeq : x = y := le_antisymm hxy hyx
  subst hxyeq
  exact lt_irrefl _ hlt

/-! ## Crossover scan characterization -/

lemma crossover_scan_eq (rows : List (ℤ × ℤ)) : ∀ prev : ℤ × ℤ,
    crossover_scan prev.2 rows =
      (((prev :: rows).zip rows).find? fun pr => decide (sign_change pr.1.2 pr.2.2)).map
        (fun pr => pr.2.1) := by
  induction rows with
  | nil => intro prev; rfl
  | cons hd tl ih =>
    intro prev
    obtain ⟨a, d⟩ := hd
    rw [List.zip_cons_cons]
    by_cases hcond : sign_change prev.2 d
    · rw [crossover_scan, if_pos hcond, List.find?_cons_of_pos]
      · rfl
      · exact decide_eq_true hcond
    · rw [crossover_scan, if_neg hcond, List.find?_cons_of_neg]
      · exact ih (a, d)
      · simp [hcond]

/-! ## Claim theorems: the pure formulas -/

/-- C1: for every base amount, increase rate and ages with
`pension_start_age ≤ current_age`, the adjusted monthly pension is
`amt * (1 + r) ^ (current_age - pension_start_age)`; in particular at
`current_age = pension_start_age` it is exactly `amt`. -/
theorem C1_adjusted_pension_compounds (amt r : ℚ) (s a : ℤ) (hsa : s ≤ a) :
    adjustedMonthlyPension ℚ amt s a r = amt * (1 + r) ^ (a - s).toNat
    ∧ (a = s → adjustedMonthlyPension ℚ amt s a r = amt) := by
  have hnot : ¬ a < s := not_lt.mpr hsa
  constructor
  · unfold adjustedMonthlyPension calculate_annual_pension_with_increase_rate
    rw [if_neg hnot]
    field_simp
  · intro h
    subst h
    unfold adjustedMonthlyPension calculate_annual_pension_with_increase_rate
    rw [if_neg hnot]
    norm_num

/-- Witness for C1 at `amt = 3`, `r = 1/2`, `s = a = 65`. -/
theorem C1_witness :
    (65 : ℤ) ≤ 65 ∧
      (adjustedMonthlyPension ℚ 3 65 65 (1 / 2) = 3 * (1 + 1 / 2) ^ ((65 : ℤ) - 65).toNat
        ∧ ((65 : ℤ) = 65 → adjustedMonthlyPension ℚ 3 65 65 (1 / 2) = 3)) :=
  ⟨le_refl 65, C1_adjusted_pension_compounds 3 (1 / 2) 65 65 (le_refl 65)⟩

/-- C4: over the integers `0 ≤ yearsEarly ≤ 5` the reduction factor is
`1 - 0.06 * yearsEarly`; in particular it is exactly `1` at `0` and exactly
`0.70` at `5`. -/
theorem C4_reduction_factor :
    (∀ y : ℤ, 0 ≤ y → y ≤ 5 →
        calculate_early_pension_reduction_rate ℚ y = 1 - (6 / 100) * (y : ℚ))
    ∧ calculate_early_pension_reduction_rate ℚ 0 = 1
    ∧ calculate_early_pension_reduction_rate ℚ 5 = 70 / 100 := by
  refine ⟨fun y _ _ => ?_, by norm_num [calculate_early_pension_reduction_rate],
    by norm_num [calculate_early_pension_reduction_rate]⟩
  unfold calculate_early_pension_reduction_rate
  ring

/-- C9: before the pension start age the source function returns `0`
(hence the adjusted monthly pension is `0` too). -/
theorem C9_before_start_zero (amt r : ℚ) (s a : ℤ) (h : a < s) :
    calculate_annual_pension_with_increase_rate ℚ amt s a r = 0
    ∧ adjustedMonthlyPension ℚ amt s a r = 0 := by
  constructor
  · unfold calculate_annual_pension_with_increase_rate
    rw [if_pos h]
  · unfold adjustedMonthlyPension calculate_annual_pension_with_increase_rate
    rw [if_pos h]
    exact zero_div _

/-- Witness for C9 at `amt = 7`, `r = 1/4`, `s = 65`, `a = 64`. -/
theorem C9_witness :
    (64 : ℤ) < 65 ∧
      (calculate_annual_pension_with_increase_rate ℚ 7 65 64 (1 / 4) = 0
        ∧ adjustedMonthlyPension ℚ 7 65 64 (1 / 4) = 0) :=
  ⟨by decide, C9_before_start_zero 7 (1 / 4) 65 64 (by decide)⟩

/-- C2: the crossover loop returns exactly the age of the first consecutive
pair of deltas with a sign change (none when no pair qualifies); on the
synthetic delta sequences `[+5, +2, -1, -3]` at ages `65..68` and
`[+3, 0, -2]` at ages `65..67` it reports `67` and the age of the `0`
entry. -/
theorem C2_crossover_detection :
    (∀ rows : List (ℤ × ℤ), crossover_age rows = crossover_first_sign_change rows)
    ∧ (∀ rows : List (ℤ × ℤ),
        (∀ pr ∈ rows.zip rows.tail, ¬ sign_change pr.1.2 pr.2.2) →
          crossover_age rows = none)
    ∧ crossover_age [(65, 5), (66, 2), (67, -1), (68, -3)] = some 67
    ∧ crossover_age [(65, 3), (66, 0), (67, -2)] = some 66 := by
  have hmain : ∀ rows : List (ℤ × ℤ),
      crossover_age rows = crossover_first_sign_change rows := by
    intro rows
    cases rows with
    | nil => rfl
    | cons r0 rest =>
      obtain ⟨a0, d0⟩ := r0
      show crossover_scan d0 rest = _
      have h := crossover_scan_eq rest (a0, d0)
      unfold crossover_first_sign_change
      simpa using h
  refine ⟨hmain, ?_, by decide, by decide⟩
  intro rows h
  rw [hmain]
  unfold crossover_first_sign_change
  rw [List.find?_eq_none.mpr]
  · rfl
  · intro x hx
    simp [h x hx]

/-- C3: the merged frame carries exactly the integer ages from `s` to `e`
inclusive; a row whose age has no entry in the regular series shows `0`
regular assets, and every row's delta is the early assets minus the regular
assets of its age (each read with default `0`). -/
lemma merged_df_ages (early_df regular_df : List (ℤ × ℤ)) (s e : ℤ) :
    (merged_df early_df regular_df s e).map (fun row => row.1)
      = (List.range (e + 1 - s).toNat).map (fun n : ℕ => (s + n : ℤ)) := by
  unfold merged_df
  rw [List.map_map]
  rfl

theorem C3_merged_series (early_df regular_df : List (ℤ × ℤ)) (s e : ℤ) :
    (∀ a : ℤ,
        a ∈ (merged_df early_df regular_df s e).map (fun row => row.1) ↔ s ≤ a ∧ a ≤ e)
    ∧ ∀ row ∈ merged_df early_df regular_df s e,
        (lookupAsset regular_df row.1 = none → row.2.2.1 = 0)
        ∧ row.2.2.2
            = (lookupAsset early_df row.1).getD 0 - (lookupAsset regular_df row.1).getD 0 := by
  constructor
  · intro a
    rw [merged_df_ages]
    constructor
    · intro hmem
      rw [List.mem_map] at hmem
      obtain ⟨n, hn, rfl⟩ := hmem
      rw [List.mem_range] at hn
      omega
    · intro ⟨h1, h2⟩
      rw [List.mem_map]
      exact ⟨(a - s).toNat, List.mem_range.mpr (by omega), by omega⟩
  · intro row hrow
    simp only [merged_df, List.mem_map, List.mem_range] at hrow
    obtain ⟨n, hn, rfl⟩ := hrow
    exact ⟨fun h => by simp [h], rfl⟩

/-! ## Structural lemmas about the simulation loop -/

lemma simulate_rows_snd (p : SimParams) : ∀ n : ℕ,
    (simulate_rows p n).2 = capital_after p n := by
  intro n
  induction n with
  | zero => rfl
  | succ n ih =>
    simp only [simulate_rows, capital_after]
    rw [ih]

lemma simulate_rows_fst (p : SimParams) : ∀ n : ℕ,
    (simulate_rows p n).1 = (List.range n).map
      (fun k : ℕ => ((p.investment_start_age + k : ℤ), pyround (capital_after p (k + 1)))) := by
  intro n
  induction n with
  | zero => rfl
  | succ n ih =>
    simp only [simulate_rows]
    rw [ih, simulate_rows_snd, List.range_succ, List.map_append]
    rfl

/-! ## The quarterly rate -/

lemma quarterly_return_rate_nonneg {r : ℝ} (hr : 0 ≤ r) :
    0 ≤ quarterly_return_rate r := by
  unfold quarterly_return_rate
  have h1 : (1 : ℝ) ≤ (1 + r) ^ ((1 : ℝ) / 4) := by
    calc (1 : ℝ) = (1 : ℝ) ^ ((1 : ℝ) / 4) := (Real.one_rpow _).symm
    _ ≤ (1 + r) ^ ((1 : ℝ) / 4) :=
        Real.rpow_le_rpow (by norm_num) (by linarith) (by norm_num)
  linarith

lemma quarterly_return_rate_zero : quarterly_return_rate 0 = 0 := by
  unfold quarterly_return_rate
  rw [add_zero, Real.one_rpow]
  ring

/-- C8: the quarterly rate de-annualizes the annual rate exactly: four
quarterly compoundings reproduce `1 + annualReturnRate` (an identity of the
real numbers the floating-point arithmetic approximates). -/
theorem C8_quarterly_rate_identity (r : ℝ) (hr : 0 ≤ r) :
    (1 + quarterly_return_rate r) ^ (4 : ℕ) = 1 + r := by
  unfold quarterly_return_rate
  have hb : (0 : ℝ) ≤ 1 + r := by linarith
  have h1 : (1 : ℝ) + ((1 + r) ^ ((1 : ℝ) / 4) - 1) = (1 + r) ^ ((1 : ℝ) / 4) := by
    ring
  rw [h1, ← Real.rpow_natCast ((1 + r) ^ ((1 : ℝ) / 4)) 4, ← Real.rpow_mul hb]
  norm_num

/-- Witness for C8 at `r = 0`. -/
theorem C8_witness :
    (0 : ℝ) ≤ 0 ∧ (1 + quarterly_return_rate 0) ^ (4 : ℕ) = 1 + 0 :=
  ⟨le_refl 0, C8_quarterly_rate_identity 0 (le_refl 0)⟩

/-- C7: the recording loop carries exactly the same running total as the
full-precision compounding recursion that never records (so the rounding at
line 63 does not feed back), and every recorded row is `pyround` of the
full-precision capital of its age-year. -/
theorem C7_rounding_only_reported (p : SimParams) :
    (∀ n : ℕ, (simulate_rows p n).2 = capital_after p n)
    ∧ simulate_investment p
        = (List.range (p.investment_end_age + 1 - p.investment_start_age).toNat).map
            (fun k : ℕ =>
              ((p.investment_start_age + k : ℤ), pyround (capital_after p (k + 1)))) :=
  ⟨simulate_rows_snd p, simulate_rows_fst p _⟩

/-! ## Monotonicity of the compounding steps -/

lemma quarter_step_le {q m c : ℝ} (hc : 0 ≤ c) (hq : 0 ≤ q) (hm : 0 ≤ m) :
    c ≤ quarter_step q m c ∧ 0 ≤ quarter_step q m c := by
  unfold quarter_step
  constructor
  · nlinarith [mul_nonneg (by linarith : (0 : ℝ) ≤ c + m * 3) hq]
  · exact mul_nonneg (by linarith) (by linarith)

lemma year_step_le {q m c : ℝ} (hc : 0 ≤ c) (hq : 0 ≤ q) (hm : 0 ≤ m) :
    c ≤ year_step q m c ∧ 0 ≤ year_step q m c := by
  obtain ⟨h1, h1n⟩ := quarter_step_le hc hq hm
  obtain ⟨h2, h2n⟩ := quarter_step_le h1n hq hm
  obtain ⟨h3, h3n⟩ := quarter_step_le h2n hq hm
  obtain ⟨h4, h4n⟩ := quarter_step_le h3n hq hm
  constructor
  · unfold year_step
    linarith
  · unfold year_step
    linarith

lemma capital_after_nonneg (p : SimParams)
    (hq : 0 ≤ quarterly_return_rate p.annual_return_rate)
    (hinit : 0 ≤ p.initial_capital)
    (hinc : ∀ a : ℤ, 0 ≤ annual_pension_income_for_current_year p a) :
    ∀ n : ℕ, 0 ≤ capital_after p n := by
  intro n
  induction n with
  | zero => exact hinit
  | succ n ih =>
    have hm : 0 ≤ annual_pension_income_for_current_year p (p.investment_start_age + n) / 12 :=
      div_nonneg (hinc _) (by norm_num)
    simp only [capital_after, year_update]
    exact (year_step_le ih hq hm).2

lemma capital_after_mono_succ (p : SimParams)
    (hq : 0 ≤ quarterly_return_rate p.annual_return_rate)
    (hinit : 0 ≤ p.initial_capital)
    (hinc : ∀ a : ℤ, 0 ≤ annual_pension_income_for_current_year p a)
    (n : ℕ) : capital_after p n ≤ capital_after p (n + 1) := by
  have hm : 0 ≤ annual_pension_income_for_current_year p (p.investment_start_age + n) / 12 :=
    div_nonneg (hinc _) (by norm_num)
  simp only [capital_after, year_update]
  exact (year_step_le (capital_after_nonneg p hq hinit hinc n) hq hm).1

/-- C5: with a nonnegative annual return rate, nonnegative initial capital
and nonnegative pension income at every age, the recorded asset snapshots of
the produced series never decrease from one age to the next. -/
theorem C5_assets_monotone (p : SimParams)
    (hr : 0 ≤ p.annual_return_rate) (hinit : 0 ≤ p.initial_capital)
    (hinc : ∀ a : ℤ, 0 ≤ annual_pension_income_for_current_year p a) :
    List.Chain' (fun x y : ℤ × ℤ => x.2 ≤ y.2) (simulate_investment p) := by
  have hq := quarterly_return_rate_nonneg hr
  unfold simulate_investment
  rw [simulate_rows_fst]
  cases hN : (p.investment_end_age + 1 - p.investment_start_age).toNat with
  | zero => simp
  | succ N =>
    rw [List.chain'_map, List.chain'_range_succ]
    intro m hm
    exact pyround_mono (capital_after_mono_succ p hq hinit hinc (m + 1))

/-- Witness for C5 at the parameter vector
`(0, 1, 1, 0, 65, 66, 0, regular, 65, 65)`. -/
theorem C5_witness :
    ((0 : ℝ) ≤ 0 ∧ (0 : ℝ) ≤ 0)
    ∧ (∀ a : ℤ, 0 ≤ annual_pension_income_for_current_year
        ⟨0, 1, 1, 0, 65, 66, 0, PensionType.regular, 65, 65⟩ a)
    ∧ List.Chain' (fun x y : ℤ × ℤ => x.2 ≤ y.2)
        (simulate_investment ⟨0, 1, 1, 0, 65, 66, 0, PensionType.regular, 65, 65⟩) := by
  have hinc : ∀ a : ℤ, 0 ≤ annual_pension_income_for_current_year
      ⟨0, 1, 1, 0, 65, 66, 0, PensionType.regular, 65, 65⟩ a := by
    intro a
    show 0 ≤ calculate_annual_pension_with_increase_rate ℝ 1 65 a 0
    unfold calculate_annual_pension_with_increase_rate
    split
    · exact le_refl 0
    · positivity
  exact ⟨⟨le_refl 0, le_refl 0⟩, hinc,
    C5_assets_monotone _ (le_refl 0) (le_refl 0) hinc⟩

/-! ## The zero-rate special case -/

lemma income_zero_rate (b s e : ℤ) (pt : PensionType) (n : ℕ) :
    annual_pension_income_for_current_year (zero_rate_params b s e pt) (s + n) = 12 * b := by
  have hnot : ¬ (s + (n : ℤ) < s) := by omega
  cases pt
  case early =>
    show calculate_annual_pension_with_increase_rate ℝ b s (s + n) 0 = 12 * b
    unfold calculate_annual_pension_with_increase_rate
    rw [if_neg hnot]
    norm_num [mul_comm]
  case regular =>
    show calculate_annual_pension_with_increase_rate ℝ b s (s + n) 0 = 12 * b
    unfold calculate_annual_pension_with_increase_rate
    rw [if_neg hnot]
    norm_num [mul_comm]

lemma zero_rate_params_rate (b s e : ℤ) (pt : PensionType) :
    (zero_rate_params b s e pt).annual_return_rate = 0 := rfl

lemma zero_rate_params_start (b s e : ℤ) (pt : PensionType) :
    (zero_rate_params b s e pt).investment_start_age = s := rfl

lemma capital_zero_rate (b s e : ℤ) (pt : PensionType) : ∀ n : ℕ,
    capital_after (zero_rate_params b s e pt) n = 12 * (b : ℝ) * n := by
  intro n
  induction n with
  | zero =>
    simp [capital_after, zero_rate_params]
  | succ n ih =>
    simp only [capital_after, year_update, zero_rate_params_rate, zero_rate_params_start]
    rw [ih, income_zero_rate, quarterly_return_rate_zero]
    unfold year_step quarter_step
    push_cast
    ring

/-- C6: with zero return and increase rates, the asset snapshot recorded at
age `A` is exactly `baseMonthly * 12 * (A - startAge + 1)` for every age
`A` of the simulated range (for either strategy tag). -/
theorem C6_zero_rate_exact (b s e A : ℤ) (pt : PensionType)
    (hsA : s ≤ A) (hAe : A ≤ e) :
    (simulate_investment (zero_rate_params b s e pt))[(A - s).toNat]?
      = some (A, b * 12 * (A - s + 1)) := by
  unfold simulate_investment
  rw [simulate_rows_fst]
  have hlt : (A - s).toNat
      < ((zero_rate_params b s e pt).investment_end_age + 1
          - (zero_rate_params b s e pt).investment_start_age).toNat := by
    rw [zero_rate_params_start]
    show (A - s).toNat < (e + 1 - s).toNat
    omega
  rw [List.getElem?_map, List.getElem?_range hlt]
  rw [Option.map_some']
  rw [zero_rate_params_start, capital_zero_rate]
  have hcast : 12 * (b : ℝ) * (((A - s).toNat + 1 : ℕ) : ℝ)
      = ((b * 12 * (A - s + 1) : ℤ) : ℝ) := by
    have hk : (((A - s).toNat : ℕ) : ℝ) = ((A - s : ℤ) : ℝ) := by
      norm_cast
      omega
    push_cast [hk]
    ring
  rw [hcast, pyround_intCast]
  have hage : s + (((A - s).toNat : ℕ) : ℤ) = A := by omega
  rw [hage]

/-- Witness for C6 at `b = 1`, `s = 65`, `e = 66`, `A = 65`, regular tag. -/
theorem C6_witness :
    ((65 : ℤ) ≤ 65 ∧ (65 : ℤ) ≤ 66)
    ∧ (simulate_investment (zero_rate_params 1 65 66 PensionType.regular))[((65 : ℤ) - 65).toNat]?
        = some (65, 1 * 12 * (65 - 65 + 1)) :=
  ⟨⟨by decide, by decide⟩,
    C6_zero_rate_exact 1 65 66 65 PensionType.regular (by decide) (by decide)⟩

/-! ## Equal-parameter simulations coincide -/

lemma simulate_rows_congr (p q : SimParams)
    (h0 : p.initial_capital = q.initial_capital)
    (h1 : p.annual_return_rate = q.annual_return_rate)
    (h2 : p.investment_start_age = q.investment_start_age)
    (h3 : ∀ a : ℤ, annual_pension_income_for_current_year p a
        = annual_pension_income_for_current_year q a) :
    ∀ n : ℕ, simulate_rows p n = simulate_rows q n := by
  intro n
  induction n with
  | zero => simp [simulate_rows, h0]
  | succ n ih =>
    have hyu : ∀ a : ℤ, ∀ c : ℝ, year_update p a c = year_update q a c := by
      intro a c
      unfold year_update
      rw [h1, h3]
    simp only [simulate_rows]
    rw [ih, h2, hyu]

lemma merged_df_delta_self (l : List (ℤ × ℤ)) (s e : ℤ) :
    ∀ row ∈ merged_df l l s e, row.2.2.2 = 0 := by
  intro row hrow
  rw [merged_df, List.mem_map] at hrow
  obtain ⟨n, hn, rfl⟩ := hrow
  simp

lemma crossover_scan_zero : ∀ rows : List (ℤ × ℤ), (∀ x ∈ rows, x.2 = 0) →
    crossover_scan 0 rows = none := by
  intro rows
  induction rows with
  | nil => intro _; rfl
  | cons hd tl ih =>
    intro h
    obtain ⟨a, d⟩ := hd
    have hd0 : d = 0 := h (a, d) (List.mem_cons_self _ _)
    subst hd0
    rw [crossover_scan, if_neg]
    · exact ih fun x hx => h x (List.mem_cons_of_mem _ hx)
    · simp [sign_change]

lemma crossover_age_zero (rows : List (ℤ × ℤ)) (h : ∀ x ∈ rows, x.2 = 0) :
    crossover_age rows = none := by
  cases rows with
  | nil => rfl
  | cons hd tl =>
    obtain ⟨a, d⟩ := hd
    have hd0 : d = 0 := h (a, d) (List.mem_cons_self _ _)
    subst hd0
    show crossover_scan 0 tl = none
    exact crossover_scan_zero tl fun x hx => h x (List.mem_cons_of_mem _ hx)

/-- C10: with zero early years the reduction factor is `1` and both start
ages coincide, so the two strategies' series are identical entry for entry,
every merged delta is `0`, and the crossover scan reports nothing (a zero
delta at the preceding index never triggers detection). -/
theorem C10_zero_early_years (base r ri : ℝ) (rs e : ℤ) :
    simulate_investment (early_params base 0 r ri rs e)
        = simulate_investment (regular_params base 0 r ri rs e)
    ∧ (∀ row ∈ merged_rows base 0 r ri rs e, row.2.2.2 = 0)
    ∧ merged_crossover_age base 0 r ri rs e = none := by
  have hinc : ∀ a : ℤ,
      annual_pension_income_for_current_year (early_params base 0 r ri rs e) a
        = annual_pension_income_for_current_year (regular_params base 0 r ri rs e) a := by
    intro a
    show calculate_annual_pension_with_increase_rate ℝ (early_monthly_pension_at_start base 0)
          (early_pension_start_age rs 0) a ri
        = calculate_annual_pension_with_increase_rate ℝ base rs a ri
    have h1 : early_monthly_pension_at_start base 0 = base := by
      unfold early_monthly_pension_at_start calculate_early_pension_reduction_rate
      push_cast
      ring
    have h2 : early_pension_start_age rs 0 = rs := by
      unfold early_pension_start_age
      ring
    rw [h1, h2]
  have hstart : (early_params base 0 r ri rs e).investment_start_age
      = (regular_params base 0 r ri rs e).investment_start_age := by
    show early_pension_start_age rs 0 = rs
    unfold early_pension_start_age
    ring
  have hrows := simulate_rows_congr (early_params base 0 r ri rs e)
    (regular_params base 0 r ri rs e) rfl rfl hstart hinc
  have hsi : simulate_investment (early_params base 0 r ri rs e)
      = simulate_investment (regular_params base 0 r ri rs e) := by
    unfold simulate_investment
    have harg : ((early_params base 0 r ri rs e).investment_end_age + 1
          - (early_params base 0 r ri rs e).investment_start_age).toNat
        = ((regular_params base 0 r ri rs e).investment_end_age + 1
          - (regular_params base 0 r ri rs e).investment_start_age).toNat := by
      show (e + 1 - early_pension_start_age rs 0).toNat = (e + 1 - rs).toNat
      unfold early_pension_start_age
      omega
    rw [harg, hrows]
  have hmerged : ∀ row ∈ merged_rows base 0 r ri rs e, row.2.2.2 = 0 := by
    intro row hrow
    unfold merged_rows at hrow
    rw [hsi] at hrow
    exact merged_df_delta_self _ _ _ row hrow
  have hzero : ∀ x ∈ (merged_rows base 0 r ri rs e).map (fun row => (row.1, row.2.2.2)),
      x.2 = 0 := by
    intro x hx
    rw [List.mem_map] at hx
    obtain ⟨row, hrow, rfl⟩ := hx
    exact hmerged row hrow
  exact ⟨hsi, hmerged, crossover_age_zero _ hzero⟩
